import Mathlib

/-!
# Verification of the log-classification-and-accumulation engine

Shallow embedding of `src/controllers/parseTransaction.ts`: the per-log scan
over a transaction's receipt logs, the routing decision per log (currency
update, token-movement extraction, sale-event detection and decode dispatch),
and the finalization step.

The file `parseTransaction.ts` is the only source file available; its
collaborators (`parseSeaport`, `parseNftTrader`, `parseSaleToken`,
`parseSwapToken`, `initializeTransactionData`, the registries and the
external API utilities) are modelled from the specification, each with a
doc comment starting `Modelled from the spec:`.

Machine numbers: prices are embedded as `Rat` (the source computes
`Number(ethers.utils.formatUnits(value, decimals))`, i.e. `value / 10^decimals`).
Fallible steps return `Option`: `none` is the source's `return null`.
-/

namespace NftBot

/-- Currency descriptor from the currency registry: `{ name, decimals }`. -/
structure Currency where
  name : String
  decimals : Nat
deriving Repr, DecidableEq

/-- Market descriptor from the market registry:
`{ name, logDecoder: optional schema, isSwapMarket }`.
The decode schema is abstracted to a `Nat` identifier; only its presence and
which payload the external `decodeLog` produces for it matter here. -/
structure Market where
  name : String
  logDecoder : Option Nat
  isSwapMarket : Bool
deriving Repr, DecidableEq

/-- One entry of a Seaport-style offer/consideration sequence. -/
structure ReceivedItem where
  token : String
  amount : Nat
deriving Repr, DecidableEq

/-- A decoded log payload, the result of `web3.eth.abi.decodeLog`.
The source discriminates payload shapes by probing for a distinguishing
field (`offer` for a Seaport order, `_swapId` for an NftTrader swap event),
so those two are `Option`s; `price` and `amount` are the fields read by the
generic sale branch. -/
structure DecodedLogData where
  offer : Option (List ReceivedItem)
  consideration : List ReceivedItem
  _swapId : Option Nat
  price : Nat
  amount : Nat
deriving Repr, DecidableEq

/-- A raw receipt log entry: `{ address, topics, data }`. -/
structure Log where
  address : String
  topics : List String
  data : String
deriving Repr, DecidableEq

/-- A transaction receipt. `toAddr`/`fromAddr` embed the source's
`receipt.to`/`receipt.from` (`to` and `from` are reserved in Lean). -/
structure Receipt where
  toAddr : String
  fromAddr : String
  logs : List Log
deriving Repr, DecidableEq

/-- The contract data handed to the parser (only `symbol` is read here). -/
structure ContractData where
  symbol : String
deriving Repr, DecidableEq

/-- Token metadata returned by the external `getTokenData` lookup. -/
structure TokenData where
  name : String
deriving Repr, DecidableEq

/-- Swap-specific sub-state of the transaction summary. -/
structure SwapData where
  monitorTokenId : Option String
deriving Repr, DecidableEq

/-- The transaction summary record threaded through the scan.
`toName`/`fromName` embed the source's `tx.to`/`tx.from` (`from` is reserved
in Lean). -/
structure TxData where
  market : Market
  currency : Currency
  isSwap : Bool
  isSweep : Bool
  contractAddress : String
  symbol : String
  tokens : List Nat
  tokenId : Option String
  tokenType : Option String
  marketList : List Market
  prices : List Rat
  totalPrice : Rat
  swap : SwapData
  fromAddr : Option String
  toAddr : Option String
  quantity : Nat
  toName : String
  fromName : String
  tokenData : TokenData
  tokenName : String
  sweeperAddr : String
  sweeper : String
  usdPrice : Option String
  ethUsdValue : String
  transactionHash : String
deriving Repr, DecidableEq

/-- The injected static registries and external collaborators (spec §6):
the market and currency registries, the sale-event signature set, the pure
log decoder, and the external lookups used at finalization. `sweepFlag`
stands for the sweep-mode determination performed by
`initializeTransactionData` from the recipient's market descriptor. -/
structure Env where
  markets : List (String × Market)
  currencies : List (String × Currency)
  saleEventTypes : List String
  decodeLog : Nat → String → DecodedLogData
  sweepFlag : Market → Bool
  getTransactionReceipt : String → Receipt
  resolveMonitorToken : String → Nat → Option String
  getReadableName : String → String
  getTokenData : String → String → String → TokenData
  getEthUsdPrice : Rat → String

/-- Modelled from the spec: numeric formatting for display is out of scope
(§1, "numeric formatting for display"), so `formatPrice` keeps the numeric
value unchanged. -/
def formatPrice (p : Rat) : Rat := p

/-- Embeds `ethers.utils.formatUnits value decimals` followed by `Number(...)`:
the raw integer scaled down by `10 ^ decimals`. -/
def formatUnits (value : Nat) (decimals : Nat) : Rat :=
  (value : Rat) / (10 : Rat) ^ decimals

/-- JavaScript string-option falsiness: `!x` is true for `undefined` and
for the empty string. -/
def jsFalsyStr : Option String → Bool
  | none => true
  | some s => s == ""

/-- JavaScript `??`/template fallback for a possibly-undefined string. -/
def interpolate : Option String → String
  | none => "undefined"
  | some s => s

/-- JavaScript `toLowerCase`, embedded as a character-by-character map over
the string's characters (kernel-executable, unlike `String.toLower`). -/
def strToLower (s : String) : String := ⟨s.data.map Char.toLower⟩

/-- The ERC721/ERC20 `Transfer` event signature topic. -/
def transferTopic : String := "Transfer(address,address,uint256)"

/-- The ERC1155 `TransferSingle` event signature topic. -/
def transferSingleTopic : String :=
  "TransferSingle(address,address,address,uint256,uint256)"

/-- Decimal parse of a topic or data word, defaulting to `0` (embedded as a
fold over the characters so that it is kernel-executable). -/
def parseNatD (s : String) : Nat :=
  if s.data ≠ [] ∧ s.data.all Char.isDigit then
    s.data.foldl (fun n c => 10 * n + (c.toNat - 48)) 0
  else 0

/-- Modelled from the spec: `parseSaleToken` (§4.2, sale-path extraction) is
not under `src/`. "Tracks every transferred token id/amount, inferring
ERC721 (single id) vs ERC1155 (id+amount) shape from the log's topic/data
layout. This extractor never aborts; a log irrelevant to token movement is a
no-op." An ERC721 `Transfer` of the monitored contract appends its token id
to `tokens` and records the transfer parties; an ERC1155 `TransferSingle`
appends the transferred amount. -/
def parseSaleToken (tx : TxData) (log : Log) (logAddress : String) : TxData :=
  if logAddress = tx.contractAddress then
    if log.topics.headD "" = transferTopic ∧ log.topics.length = 4 then
      { tx with
        tokens := tx.tokens ++ [parseNatD (log.topics.getD 3 "")]
        tokenId := some (log.topics.getD 3 "")
        tokenType := some "ERC721"
        fromAddr := some (log.topics.getD 1 "")
        toAddr := some (log.topics.getD 2 "") }
    else if log.topics.headD "" = transferSingleTopic then
      { tx with
        tokens := tx.tokens ++ [parseNatD log.data]
        tokenType := some "ERC1155" }
    else tx
  else tx

/-- Modelled from the spec: `parseSwapToken` (§4.2, swap-path extraction) is
not under `src/`. "Swap-path extraction tracks a single 'monitored' token id
carried by the swap"; it never aborts, and a log irrelevant to token
movement is a no-op. -/
def parseSwapToken (tx : TxData) (log : Log) (logAddress : String) : TxData :=
  if logAddress = tx.contractAddress ∧ log.topics.headD "" = transferTopic ∧
      log.topics.length = 4 then
    { tx with
      swap := { monitorTokenId := some (log.topics.getD 3 "") }
      tokenType := some "ERC721" }
  else tx

/-- Modelled from the spec: `parseSeaport` (§4.3a) is not under `src/`.
"Extracts a settlement price from the offer/consideration structure; returns
'no price' (non-fatal) when the structure carries no executed consideration";
on success it credits the price: adds the scaled settlement amount to
`totalPrice` and appends the contributing market and the formatted price to
`marketList`/`prices` (§3, §8: a no-consideration log "never increments
`totalPrice` or `marketList`"). -/
def parseSeaport (tx : TxData) (logMarket : Market) (d : DecodedLogData) :
    Option TxData :=
  if d.consideration = [] then none
  else
    let price := formatUnits (d.consideration.map ReceivedItem.amount).sum
      tx.currency.decimals
    some { tx with
      totalPrice := tx.totalPrice + price
      marketList := tx.marketList ++ [logMarket]
      prices := tx.prices ++ [formatPrice price] }

/-- Modelled from the spec: `parseNftTrader` (§4.3b) is not under `src/`.
"Must resolve which side of the swap is the monitored token and its id (may
require one additional external receipt/log lookup). Returns failure (fatal,
aborts transaction) if no resolvable monitored token can be found." The
external lookup is `Env.resolveMonitorToken`. -/
def parseNftTrader (env : Env) (tx : TxData) (_log : Log) (_logAddress : String)
    (d : DecodedLogData) : Option TxData :=
  match env.resolveMonitorToken tx.contractAddress (d._swapId.getD 0) with
  | none => none
  | some tokenId => some { tx with swap := { monitorTokenId := some tokenId } }

/-- Source `isSeaport`: a decoded payload is a Seaport order iff its
`offer` field is defined. -/
def isSeaport (d : DecodedLogData) : Bool := d.offer.isSome

/-- Source `isNftTrader`: a decoded payload is a swap event iff its
`_swapId` field is defined. -/
def isNftTrader (d : DecodedLogData) : Bool := d._swapId.isSome

/-- Modelled from the spec: `initializeTransactionData` is not under `src/`.
It creates the summary record empty at scan start (§3): mode flags fixed
before the scan from the recipient's market descriptor (`isSwap` from
`isSwapMarket`, `isSweep` supplied by the caller's determination), sticky
default currency, and empty accumulators. -/
def initTransactionData (contractData : ContractData) (recipientMarket : Market)
    (isSweep : Bool) (contractAddress : String) : TxData :=
  { market := recipientMarket
    currency := { name := "ETH", decimals := 18 }
    isSwap := recipientMarket.isSwapMarket
    isSweep := isSweep
    contractAddress := contractAddress
    symbol := contractData.symbol
    tokens := []
    tokenId := none
    tokenType := none
    marketList := []
    prices := []
    totalPrice := 0
    swap := { monitorTokenId := none }
    fromAddr := none
    toAddr := none
    quantity := 0
    toName := ""
    fromName := ""
    tokenData := { name := "" }
    tokenName := ""
    sweeperAddr := ""
    sweeper := ""
    usdPrice := none
    ethUsdValue := ""
    transactionHash := "" }

/-- The first topic of a log is a known sale-event signature
(`saleEventTypes.includes(log.topics[0])`; an absent first topic matches
nothing). -/
def firstTopicIsSaleEvent (env : Env) (log : Log) : Bool :=
  match log.topics.head? with
  | some t => env.saleEventTypes.contains t
  | none => false

/-- Source `isSale`: the log's address equals the transaction recipient and its
first topic is a known sale-event signature. -/
def isSaleLog (env : Env) (recipient : String) (log : Log) : Bool :=
  (strToLower log.address) == recipient && firstTopicIsSaleEvent env log

/-- Source `isAggregatorSale`: the log's address is itself a known market and the
first topic is a known sale-event signature. -/
def isAggregatorSaleLog (env : Env) (log : Log) : Bool :=
  (env.markets.lookup (strToLower log.address)).isSome && firstTopicIsSaleEvent env log

/-- Source `marketLogDecoder`: the recipient market's schema for a recipient-address
sale, else the log-address market's schema (undefined when that market is
unknown, which is unreachable inside the sale branch). -/
def selectedLogDecoder (env : Env) (recipient : String) (tx : TxData)
    (log : Log) : Option Nat :=
  if isSaleLog env recipient log then tx.market.logDecoder
  else
    match env.markets.lookup (strToLower log.address) with
    | some m => m.logDecoder
    | none => none

/-- Placeholder market for the (unreachable, see `sale_branch_market_defined`)
case where `_.get(markets, logAddress)` is undefined inside the sale branch. -/
def undefinedMarket : Market :=
  { name := "", logDecoder := none, isSwapMarket := false }

/-- The three mutually exclusive payload shapes of §4.3. -/
inductive PayloadShape where
  | seaportOrder : PayloadShape
  | swapEvent : PayloadShape
  | saleEvent : PayloadShape
deriving Repr, DecidableEq

/-- Shape discrimination exactly as the source's `if`/`else if` chain orders
it: the offer-shape probe first, the swap-identifier probe second, the
generic sale fallback last. -/
def classifyPayload (d : DecodedLogData) : PayloadShape :=
  if isSeaport d then .seaportOrder
  else if isNftTrader d then .swapEvent
  else .saleEvent

/-- The price the generic sale branch reads from a decoded payload: the
`amount` field for the market named `X2Y2 ⭕️`, the `price` field otherwise,
scaled by the current currency's decimal count. -/
def genericPrice (lm : Market) (d : DecodedLogData) (c : Currency) : Rat :=
  formatUnits (if lm.name = "X2Y2 ⭕️" then d.amount else d.price) c.decimals

/-- Step 1 of the per-log routing: currency detection. If the log's address
is a known currency and the summary is not flagged as a sweep, overwrite
`currency`. -/
def applyCurrency (env : Env) (tx : TxData) (logAddress : String) : TxData :=
  match env.currencies.lookup logAddress with
  | some c => if tx.isSweep then tx else { tx with currency := c }
  | none => tx

/-- Step 2 of the per-log routing: token-movement extraction, swap-path or
sale-path depending on `isSwap`. -/
def applyTokenExtraction (tx : TxData) (log : Log) (logAddress : String) :
    TxData :=
  if tx.isSwap then parseSwapToken tx log logAddress
  else parseSaleToken tx log logAddress

/-- Steps 3–5 of the per-log routing: sale-event detection, schema
selection (aborting with `none` when no schema is available), payload decode
and three-way dispatch. The generic sale branch is guarded by
`marketList.length + 1 = tokens.length`; when the guard fails the log is
silently ignored. -/
def applySale (env : Env) (recipient : String) (tx : TxData) (log : Log) :
    Option TxData :=
  let logAddress := (strToLower log.address)
  let logMarket := env.markets.lookup logAddress
  if isSaleLog env recipient log || isAggregatorSaleLog env log then
    match selectedLogDecoder env recipient tx log with
    | none => none
    | some schema =>
      let d := env.decodeLog schema log.data
      match classifyPayload d with
      | .seaportOrder =>
        match parseSeaport tx (logMarket.getD undefinedMarket) d with
        | none => some tx
        | some tx2 => some tx2
      | .swapEvent => parseNftTrader env tx log logAddress d
      | .saleEvent =>
        if tx.marketList.length + 1 = tx.tokens.length then
          let lm := logMarket.getD undefinedMarket
          let price := genericPrice lm d tx.currency
          some { tx with
            totalPrice := tx.totalPrice + price
            marketList := tx.marketList ++ [lm]
            prices := tx.prices ++ [formatPrice price] }
        else some tx
  else some tx

/-- One iteration of the scan loop body: currency detection, token-movement
extraction, then sale-event handling. `none` is an early `return null`. -/
def processLog (env : Env) (recipient : String) (tx : TxData) (log : Log) :
    Option TxData :=
  let logAddress := (strToLower log.address)
  applySale env recipient
    (applyTokenExtraction (applyCurrency env tx logAddress) log logAddress) log

/-- The scan: fold the loop body over the receipt's logs in order, stopping
at the first abort. -/
def processLogs (env : Env) (recipient : String) :
    TxData → List Log → Option TxData
  | tx, [] => some tx
  | tx, log :: rest =>
    match processLog env recipient tx log with
    | none => none
    | some tx2 => processLogs env recipient tx2 rest

/-- Finalization `quantity`: `tokens.length` for ERC721-type records, else
the numeric sum of `tokens`. -/
def computeQuantity (tx : TxData) : Nat :=
  if tx.tokenType = some "ERC721" then tx.tokens.length else tx.tokens.sum

/-- Finalization (source lines 92–113): set `quantity`, abort with `none`
when non-swap with zero quantity or swap with no resolved monitored token id,
then enrich the record via the external lookups and stamp the transaction
hash and sweep-initiator address. -/
def finalizeTx (env : Env) (receipt : Receipt) (transactionHash : String)
    (contractAddress : String) (tx0 : TxData) : Option TxData :=
  let tx := { tx0 with quantity := computeQuantity tx0 }
  if (!tx.isSwap && tx.quantity == 0) ||
      (tx.isSwap && jsFalsyStr tx.swap.monitorTokenId) then none
  else
    let tokenData :=
      if jsFalsyStr tx.swap.monitorTokenId then
        env.getTokenData contractAddress (tx.tokenType.getD "UNKNOWN")
          (tx.tokenId.getD "")
      else
        env.getTokenData contractAddress (tx.tokenType.getD "UNKNOWN")
          (tx.swap.monitorTokenId.getD "")
    let usdPrice :=
      if !tx.isSwap && (tx.currency.name == "ETH" || tx.currency.name == "WETH")
      then some (env.getEthUsdPrice tx.totalPrice) else none
    some { tx with
      toName := if !tx.isSwap then env.getReadableName (tx.toAddr.getD "") else ""
      fromName := if !tx.isSwap then env.getReadableName (tx.fromAddr.getD "") else ""
      tokenData := tokenData
      tokenName :=
        if tokenData.name = "" then
          tx.symbol ++ " #" ++ interpolate tx.tokenId
        else tokenData.name
      sweeperAddr := receipt.fromAddr
      sweeper := if tx.isSweep then env.getReadableName receipt.fromAddr else ""
      usdPrice := usdPrice
      ethUsdValue :=
        match usdPrice with
        | some p => if p = "" then "" else "($ " ++ p ++ ")"
        | none => ""
      transactionHash := transactionHash }

/-- Source `parseTransaction`: fetch the receipt, reject an unknown recipient,
initialize the summary, scan the logs, finalize. `none` is `return null`. -/
def parseTransaction (env : Env) (transactionHash : String)
    (contractAddress : String) (contractData : ContractData) : Option TxData :=
  let receipt := env.getTransactionReceipt transactionHash
  let recipient := (strToLower receipt.toAddr)
  match env.markets.lookup recipient with
  | none => none
  | some recipientMarket =>
    let tx := initTransactionData contractData recipientMarket
      (env.sweepFlag recipientMarket) contractAddress
    match processLogs env recipient tx receipt.logs with
    | none => none
    | some tx1 => finalizeTx env receipt transactionHash contractAddress tx1

/-! ## Concrete fixtures

A small market/currency registry and a handful of receipts used to evaluate
the theorems on concrete inputs. -/

def wMarket : Market := { name := "M", logDecoder := some 0, isSwapMarket := false }

def wMarketNoDec : Market := { name := "N", logDecoder := none, isSwapMarket := false }

def wSwapMarket : Market := { name := "W", logDecoder := some 2, isSwapMarket := true }

def wSeaMarket : Market := { name := "Sea", logDecoder := some 1, isSwapMarket := false }

def wSeaMarket2 : Market := { name := "Sea2", logDecoder := some 3, isSwapMarket := false }

def wX2Market : Market := { name := "X2Y2 ⭕️", logDecoder := some 0, isSwapMarket := false }

def wWeth : Currency := { name := "WETH", decimals := 2 }

/-- A plain price payload: neither offer- nor swap-shaped. -/
def wGenericPayload : DecodedLogData :=
  { offer := none, consideration := [], _swapId := none,
    price := 1000000000000000000, amount := 7 }

/-- An offer-shaped payload with no executed consideration. -/
def wSeaportNoPricePayload : DecodedLogData :=
  { offer := some [{ token := "nft", amount := 1 }], consideration := [],
    _swapId := none, price := 0, amount := 0 }

/-- A swap-shaped payload. -/
def wSwapPayload : DecodedLogData :=
  { offer := none, consideration := [], _swapId := some 1, price := 0, amount := 0 }

/-- An offer-shaped payload with an executed consideration; it also carries a
swap identifier, exercising the discrimination order. -/
def wSeaportPricedPayload : DecodedLogData :=
  { offer := some [{ token := "nft", amount := 1 }],
    consideration := [{ token := "pay", amount := 5 }],
    _swapId := some 9, price := 0, amount := 0 }

def wTransferLog : Log :=
  { address := "nft", topics := [transferTopic, "a", "b", "42"], data := "" }

def wSaleLogM : Log := { address := "m", topics := ["sale"], data := "" }

def wSaleLogN : Log := { address := "n", topics := ["sale"], data := "" }

def wSaleLogS : Log := { address := "s", topics := ["sale"], data := "" }

def wSeaLog : Log := { address := "sea", topics := ["sale"], data := "" }

def wSeaLog2 : Log := { address := "seap", topics := ["sale"], data := "" }

def wCurrencyLog : Log := { address := "c", topics := [], data := "" }

def wOkReceipt : Receipt :=
  { toAddr := "m", fromAddr := "payer", logs := [wTransferLog, wSaleLogM] }

def wUnknownReceipt : Receipt :=
  { toAddr := "z", fromAddr := "payer", logs := [wSaleLogM] }

def wNoSchemaReceipt : Receipt :=
  { toAddr := "n", fromAddr := "payer", logs := [wSaleLogN] }

def wSwapFailReceipt : Receipt :=
  { toAddr := "s", fromAddr := "payer", logs := [wSaleLogS] }

def wSwapEmptyReceipt : Receipt :=
  { toAddr := "s", fromAddr := "payer", logs := [] }

def wEnv : Env :=
  { markets := [("m", wMarket), ("n", wMarketNoDec), ("s", wSwapMarket),
      ("sea", wSeaMarket), ("seap", wSeaMarket2), ("x", wX2Market)]
    currencies := [("c", wWeth)]
    saleEventTypes := ["sale"]
    decodeLog := fun sch _ =>
      if sch = 1 then wSeaportNoPricePayload
      else if sch = 2 then wSwapPayload
      else if sch = 3 then wSeaportPricedPayload
      else wGenericPayload
    sweepFlag := fun _ => false
    getTransactionReceipt := fun h =>
      if h = "unknown" then wUnknownReceipt
      else if h = "noSchema" then wNoSchemaReceipt
      else if h = "swapFail" then wSwapFailReceipt
      else if h = "swapEmpty" then wSwapEmptyReceipt
      else wOkReceipt
    resolveMonitorToken := fun _ _ => none
    getReadableName := fun a => a
    getTokenData := fun _ _ _ => { name := "" }
    getEthUsdPrice := fun _ => "123" }

def wContract : ContractData := { symbol := "S" }

/-- Scan-start summary for recipient market `wMarket`. -/
def wTx : TxData := initTransactionData wContract wMarket false "nft"

/-- Summary with exactly one pending unmatched token. -/
def wTx1 : TxData := { wTx with tokens := [42] }

/-- Sweep-flagged summary. -/
def wTxSweep : TxData := { wTx with isSweep := true }

/-- Scan-start summary for the swap market. -/
def wTxS : TxData := initTransactionData wContract wSwapMarket false "nft"

/-- The summary produced by scanning `wOkReceipt.logs`: one ERC721 transfer
followed by one accepted generic sale-price log. -/
def wTxScanned : TxData :=
  (processLogs wEnv "m" (initTransactionData wContract wMarket false "nft")
    wOkReceipt.logs).getD wTx

/-- The state after the Seaport-shaped no-price log `wSeaLog`. -/
def wTxAfterSea : TxData :=
  applyTokenExtraction (applyCurrency wEnv wTx (strToLower wSeaLog.address)) wSeaLog
    (strToLower wSeaLog.address)

/-- The state reached mid-scan at the swap-decoder failure. -/
def wTxSMid : TxData :=
  applyTokenExtraction (applyCurrency wEnv wTxS (strToLower wSaleLogS.address)) wSaleLogS
    (strToLower wSaleLogS.address)

/-- The state after the frozen-currency log in sweep mode. -/
def wTxSweepAfter : TxData :=
  applyTokenExtraction (applyCurrency wEnv wTxSweep (strToLower wCurrencyLog.address))
    wCurrencyLog (strToLower wCurrencyLog.address)

/-- The state after an accepted generic sale-price log from `wTx1`. -/
def wTxAfterGeneric : TxData := (processLog wEnv "m" wTx1 wSaleLogM).getD wTx1

/-! ## Frame lemmas for the scan stages -/

/-- Sale-path token extraction only touches `tokens`, `tokenId`, `tokenType`,
`fromAddr`, `toAddr`. -/
theorem parseSaleToken_frame (tx : TxData) (log : Log) (la : String) :
    (parseSaleToken tx log la).market = tx.market ∧
    (parseSaleToken tx log la).currency = tx.currency ∧
    (parseSaleToken tx log la).isSwap = tx.isSwap ∧
    (parseSaleToken tx log la).isSweep = tx.isSweep ∧
    (parseSaleToken tx log la).marketList = tx.marketList ∧
    (parseSaleToken tx log la).prices = tx.prices ∧
    (parseSaleToken tx log la).totalPrice = tx.totalPrice ∧
    (parseSaleToken tx log la).swap = tx.swap := by
  unfold parseSaleToken
  repeat' split
  all_goals exact ⟨rfl, rfl, rfl, rfl, rfl, rfl, rfl, rfl⟩

/-- Sale-path token extraction only appends to `tokens`. -/
theorem parseSaleToken_tokens_len (tx : TxData) (log : Log) (la : String) :
    tx.tokens.length ≤ (parseSaleToken tx log la).tokens.length := by
  unfold parseSaleToken
  repeat' split
  all_goals simp

/-- Swap-path token extraction only touches `swap` and `tokenType`. -/
theorem parseSwapToken_frame (tx : TxData) (log : Log) (la : String) :
    (parseSwapToken tx log la).market = tx.market ∧
    (parseSwapToken tx log la).currency = tx.currency ∧
    (parseSwapToken tx log la).isSwap = tx.isSwap ∧
    (parseSwapToken tx log la).isSweep = tx.isSweep ∧
    (parseSwapToken tx log la).marketList = tx.marketList ∧
    (parseSwapToken tx log la).prices = tx.prices ∧
    (parseSwapToken tx log la).totalPrice = tx.totalPrice ∧
    (parseSwapToken tx log la).tokens = tx.tokens := by
  unfold parseSwapToken
  split
  all_goals exact ⟨rfl, rfl, rfl, rfl, rfl, rfl, rfl, rfl⟩

/-- Token extraction (either path) leaves the price-accumulation state, the
mode flags, the market and the currency unchanged. -/
theorem applyTokenExtraction_frame (tx : TxData) (log : Log) (la : String) :
    (applyTokenExtraction tx log la).market = tx.market ∧
    (applyTokenExtraction tx log la).currency = tx.currency ∧
    (applyTokenExtraction tx log la).isSwap = tx.isSwap ∧
    (applyTokenExtraction tx log la).isSweep = tx.isSweep ∧
    (applyTokenExtraction tx log la).marketList = tx.marketList ∧
    (applyTokenExtraction tx log la).prices = tx.prices ∧
    (applyTokenExtraction tx log la).totalPrice = tx.totalPrice := by
  unfold applyTokenExtraction
  split
  · have h := parseSwapToken_frame tx log la
    exact ⟨h.1, h.2.1, h.2.2.1, h.2.2.2.1, h.2.2.2.2.1, h.2.2.2.2.2.1,
      h.2.2.2.2.2.2.1⟩
  · have h := parseSaleToken_frame tx log la
    exact ⟨h.1, h.2.1, h.2.2.1, h.2.2.2.1, h.2.2.2.2.1, h.2.2.2.2.2.1,
      h.2.2.2.2.2.2.1⟩

/-- Token extraction never removes recorded tokens. -/
theorem applyTokenExtraction_tokens_len (tx : TxData) (log : Log) (la : String) :
    tx.tokens.length ≤ (applyTokenExtraction tx log la).tokens.length := by
  unfold applyTokenExtraction
  split
  · exact le_of_eq (congrArg List.length (parseSwapToken_frame tx log la).2.2.2.2.2.2.2).symm
  · exact parseSaleToken_tokens_len tx log la

/-- Currency detection only touches `currency`, and only when the summary is
not sweep-flagged. -/
theorem applyCurrency_frame (env : Env) (tx : TxData) (la : String) :
    (applyCurrency env tx la).market = tx.market ∧
    (applyCurrency env tx la).isSwap = tx.isSwap ∧
    (applyCurrency env tx la).isSweep = tx.isSweep ∧
    (applyCurrency env tx la).marketList = tx.marketList ∧
    (applyCurrency env tx la).prices = tx.prices ∧
    (applyCurrency env tx la).totalPrice = tx.totalPrice ∧
    (applyCurrency env tx la).tokens = tx.tokens ∧
    (applyCurrency env tx la).swap = tx.swap ∧
    (applyCurrency env tx la).tokenType = tx.tokenType ∧
    (applyCurrency env tx la).contractAddress = tx.contractAddress := by
  unfold applyCurrency
  repeat' split
  all_goals exact ⟨rfl, rfl, rfl, rfl, rfl, rfl, rfl, rfl, rfl, rfl⟩

/-- The currency after currency detection: overwritten from the registry
exactly when the address is a known currency and the record is not
sweep-flagged. -/
theorem applyCurrency_currency (env : Env) (tx : TxData) (la : String) :
    (applyCurrency env tx la).currency =
      (match env.currencies.lookup la with
       | some c => if tx.isSweep then tx.currency else c
       | none => tx.currency) := by
  unfold applyCurrency
  repeat' split
  all_goals rfl

/-- Characterization of a successful Seaport-style decode: the price state
advances in lockstep and nothing else changes. -/
theorem parseSeaport_some (tx : TxData) (lm : Market) (d : DecodedLogData)
    (tx2 : TxData) (h : parseSeaport tx lm d = some tx2) :
    tx2.currency = tx.currency ∧ tx2.isSweep = tx.isSweep ∧
    tx2.isSwap = tx.isSwap ∧ tx2.swap = tx.swap ∧ tx2.tokens = tx.tokens ∧
    tx2.market = tx.market ∧ tx2.tokenType = tx.tokenType ∧
    tx2.marketList = tx.marketList ++ [lm] ∧
    tx2.prices.length = tx.prices.length + 1 := by
  unfold parseSeaport at h
  split at h
  · exact absurd h (by simp)
  · obtain rfl : _ = tx2 := Option.some.inj h
    refine ⟨rfl, rfl, rfl, rfl, rfl, rfl, rfl, rfl, ?_⟩
    simp

/-- Characterization of a successful NftTrader decode: only the swap
sub-state changes. -/
theorem parseNftTrader_some (env : Env) (tx : TxData) (log : Log)
    (la : String) (d : DecodedLogData) (tx2 : TxData)
    (h : parseNftTrader env tx log la d = some tx2) :
    tx2.currency = tx.currency ∧ tx2.isSweep = tx.isSweep ∧
    tx2.isSwap = tx.isSwap ∧ tx2.tokens = tx.tokens ∧
    tx2.market = tx.market ∧ tx2.marketList = tx.marketList ∧
    tx2.prices = tx.prices ∧ tx2.totalPrice = tx.totalPrice := by
  unfold parseNftTrader at h
  split at h
  · exact absurd h (by simp)
  · obtain rfl : _ = tx2 := Option.some.inj h
    exact ⟨rfl, rfl, rfl, rfl, rfl, rfl, rfl, rfl⟩

/-- The scan distributes over list concatenation, stopping at the first
abort. -/
theorem processLogs_append (env : Env) (recipient : String) (tx : TxData)
    (l1 l2 : List Log) :
    processLogs env recipient tx (l1 ++ l2) =
      (processLogs env recipient tx l1).bind
        (fun t => processLogs env recipient t l2) := by
  induction l1 generalizing tx with
  | nil => simp [processLogs]
  | cons log rest ih =>
    simp only [List.cons_append, processLogs]
    cases processLog env recipient tx log with
    | none => simp
    | some tx2 => simpa using ih tx2

/-! ## Payload classification lemmas -/

theorem classifyPayload_eq_seaport {d : DecodedLogData} :
    classifyPayload d = .seaportOrder ↔ isSeaport d = true := by
  cases hs : isSeaport d <;> cases hn : isNftTrader d <;>
    simp [classifyPayload, hs, hn]

theorem classifyPayload_eq_swap {d : DecodedLogData} :
    classifyPayload d = .swapEvent ↔
      (isSeaport d = false ∧ isNftTrader d = true) := by
  cases hs : isSeaport d <;> cases hn : isNftTrader d <;>
    simp [classifyPayload, hs, hn]

theorem classifyPayload_eq_sale {d : DecodedLogData} :
    classifyPayload d = .saleEvent ↔
      (isSeaport d = false ∧ isNftTrader d = false) := by
  cases hs : isSeaport d <;> cases hn : isNftTrader d <;>
    simp [classifyPayload, hs, hn]

/-! ## Characterization of the sale-dispatch stage -/

/-- The generic fallback, isolated: when the sale branch is entered, the
selected schema's payload is neither offer- nor swap-shaped, the result is
the guarded accept-or-ignore of the source's final `else if`. -/
theorem applySale_generic (env : Env) (recipient : String) (tx : TxData)
    (log : Log) (sch : Nat)
    (hsale : (isSaleLog env recipient log || isAggregatorSaleLog env log) = true)
    (hdec : selectedLogDecoder env recipient tx log = some sch)
    (hnoOffer : isSeaport (env.decodeLog sch log.data) = false)
    (hnoSwap : isNftTrader (env.decodeLog sch log.data) = false) :
    applySale env recipient tx log =
      if tx.marketList.length + 1 = tx.tokens.length then
        some { tx with
          totalPrice := tx.totalPrice +
            genericPrice ((env.markets.lookup (strToLower log.address)).getD undefinedMarket)
              (env.decodeLog sch log.data) tx.currency
          marketList := tx.marketList ++
            [(env.markets.lookup (strToLower log.address)).getD undefinedMarket]
          prices := tx.prices ++ [formatPrice
            (genericPrice ((env.markets.lookup (strToLower log.address)).getD undefinedMarket)
              (env.decodeLog sch log.data) tx.currency)] }
      else some tx := by
  have hc : classifyPayload (env.decodeLog sch log.data) = .saleEvent :=
    classifyPayload_eq_sale.mpr ⟨hnoOffer, hnoSwap⟩
  unfold applySale
  simp only [hsale, if_true, hdec, hc]

/-- Case analysis of a non-aborting sale-dispatch step: the currency, mode
flags, market and tokens never change, and the price-accumulation state
either stays unchanged or advances in lockstep — by the guarded generic
branch (which requires exactly one pending token) or by a successful
offer-shaped (Seaport) decode. -/
theorem applySale_cases (env : Env) (recipient : String) (tx : TxData)
    (log : Log) (tx' : TxData) (h : applySale env recipient tx log = some tx') :
    tx'.currency = tx.currency ∧ tx'.isSweep = tx.isSweep ∧
    tx'.isSwap = tx.isSwap ∧ tx'.market = tx.market ∧ tx'.tokens = tx.tokens ∧
    ((tx'.marketList = tx.marketList ∧ tx'.prices = tx.prices ∧
        tx'.totalPrice = tx.totalPrice) ∨
      ((tx'.marketList.length = tx.marketList.length + 1 ∧
          tx'.prices.length = tx.prices.length + 1) ∧
        (tx.marketList.length + 1 = tx.tokens.length ∨
          ∃ sch, selectedLogDecoder env recipient tx log = some sch ∧
            isSeaport (env.decodeLog sch log.data) = true))) := by
  unfold applySale at h
  split at h
  case isTrue hb =>
    split at h
    case h_1 => exact absurd h (by simp)
    case h_2 sch hsch =>
      cases hcl : classifyPayload (env.decodeLog sch log.data) with
      | seaportOrder =>
        simp only [hcl] at h
        split at h
        case h_1 =>
          obtain rfl : tx = tx' := Option.some.inj h
          exact ⟨rfl, rfl, rfl, rfl, rfl, Or.inl ⟨rfl, rfl, rfl⟩⟩
        case h_2 tx2 hps =>
          obtain rfl : tx2 = tx' := Option.some.inj h
          obtain ⟨hc, hsw, hsp, _, htk, hm, _, hml, hpl⟩ :=
            parseSeaport_some tx _ _ tx2 hps
          refine ⟨hc, hsw, hsp, hm, htk, Or.inr ⟨⟨?_, hpl⟩, Or.inr ⟨sch, hsch, ?_⟩⟩⟩
          · rw [hml]; simp
          · exact classifyPayload_eq_seaport.mp hcl
      | swapEvent =>
        simp only [hcl] at h
        obtain ⟨hc, hsw, hsp, htk, hm, hml, hpr, hpt⟩ :=
          parseNftTrader_some env tx log (strToLower log.address) _ tx' h
        exact ⟨hc, hsw, hsp, hm, htk, Or.inl ⟨hml, hpr, hpt⟩⟩
      | saleEvent =>
        simp only [hcl] at h
        split at h
        case isTrue hg =>
          obtain rfl : _ = tx' := Option.some.inj h
          refine ⟨rfl, rfl, rfl, rfl, rfl, Or.inr ⟨⟨?_, ?_⟩, Or.inl hg⟩⟩
          · simp
          · simp
        case isFalse =>
          obtain rfl : tx = tx' := Option.some.inj h
          exact ⟨rfl, rfl, rfl, rfl, rfl, Or.inl ⟨rfl, rfl, rfl⟩⟩
  case isFalse =>
    obtain rfl : tx = tx' := Option.some.inj h
    exact ⟨rfl, rfl, rfl, rfl, rfl, Or.inl ⟨rfl, rfl, rfl⟩⟩

/-- Reduction of the whole parse to scan-plus-finalization once the
recipient is known to the market registry. -/
theorem parseTransaction_eq (env : Env) (transactionHash contractAddress : String)
    (contractData : ContractData) (rm : Market)
    (hmk : env.markets.lookup
      (strToLower (env.getTransactionReceipt transactionHash).toAddr) = some rm) :
    parseTransaction env transactionHash contractAddress contractData =
      match processLogs env (strToLower (env.getTransactionReceipt transactionHash).toAddr)
        (initTransactionData contractData rm (env.sweepFlag rm) contractAddress)
        (env.getTransactionReceipt transactionHash).logs with
      | none => none
      | some tx1 => finalizeTx env (env.getTransactionReceipt transactionHash)
          transactionHash contractAddress tx1 := by
  simp only [parseTransaction, hmk]

/-! ## Claim theorems -/

/-- Claim C9: For every transaction whose receipt recipient address is not in
the market registry, the parse returns `none` (no summary) regardless of the
content of the logs list: the recipient check precedes the scan, so no log
is processed. -/
theorem unknown_recipient_no_summary (env : Env)
    (transactionHash contractAddress : String) (contractData : ContractData)
    (h : env.markets.lookup
      (strToLower (env.getTransactionReceipt transactionHash).toAddr) = none) :
    parseTransaction env transactionHash contractAddress contractData = none := by
  simp only [parseTransaction, h]

/-- C9 witness: the fixture receipt addressed to the unknown market `z` is
rejected although its logs contain a decodable sale-event log. -/
theorem unknown_recipient_no_summary_witness :
    parseTransaction wEnv "unknown" "nft" wContract = none :=
  unknown_recipient_no_summary wEnv "unknown" "nft" wContract (by decide)

/-- Claim C10: Whenever the sale-event branch is entered for a log, the market
descriptor looked up by the log's address is defined: because the recipient
was verified to be in the market registry before the scan, the
recipient-sale condition implies the aggregator-sale condition, so the
generic-sale price extraction and the special-cased market-name comparison
never access an undefined market descriptor. -/
theorem sale_branch_market_defined (env : Env) (recipient : String) (log : Log)
    (rm : Market) (hrec : env.markets.lookup recipient = some rm) :
    (isSaleLog env recipient log = true → isAggregatorSaleLog env log = true) ∧
    ((isSaleLog env recipient log || isAggregatorSaleLog env log) = true →
      (env.markets.lookup (strToLower log.address)).isSome = true) := by
  have key : isSaleLog env recipient log = true →
      isAggregatorSaleLog env log = true := by
    intro h
    simp only [isSaleLog, Bool.and_eq_true, beq_iff_eq] at h
    simp only [isAggregatorSaleLog, Bool.and_eq_true]
    exact ⟨by rw [h.1, hrec]; rfl, h.2⟩
  refine ⟨key, fun h => ?_⟩
  rw [Bool.or_eq_true] at h
  rcases h with h1 | h2
  · have h3 := key h1
    simp only [isAggregatorSaleLog, Bool.and_eq_true] at h3
    exact h3.1
  · simp only [isAggregatorSaleLog, Bool.and_eq_true] at h2
    exact h2.1

/-- C10 witness: the recipient-address sale log `wSaleLogM` under the
registered recipient `m`. -/
theorem sale_branch_market_defined_witness :
    (isSaleLog wEnv "m" wSaleLogM = true → isAggregatorSaleLog wEnv wSaleLogM = true) ∧
    ((isSaleLog wEnv "m" wSaleLogM || isAggregatorSaleLog wEnv wSaleLogM) = true →
      (wEnv.markets.lookup (strToLower wSaleLogM.address)).isSome = true) :=
  sale_branch_market_defined wEnv "m" wSaleLogM wMarket (by decide)

/-- Claim C8: Shape discrimination of a decoded sale-event payload is
exhaustive and ordered: the offer-shape check first, the swap-identifier
check second, the generic sale-price fallback last; a payload carrying an
offer field is dispatched to the listing/offer decoder even if it also
carries a swap identifier, and exactly one of the three handlers runs per
decoded payload (`classifyPayload` is total and its fibers are the three
disjoint shape conditions). -/
theorem payload_shape_discrimination (d : DecodedLogData) :
    (classifyPayload d = .seaportOrder ↔ isSeaport d = true) ∧
    (classifyPayload d = .swapEvent ↔
      (isSeaport d = false ∧ isNftTrader d = true)) ∧
    (classifyPayload d = .saleEvent ↔
      (isSeaport d = false ∧ isNftTrader d = false)) ∧
    (∀ env recipient tx log sch,
      (isSaleLog env recipient log || isAggregatorSaleLog env log) = true →
      selectedLogDecoder env recipient tx log = some sch →
      isSeaport (env.decodeLog sch log.data) = true →
      applySale env recipient tx log =
        match parseSeaport tx
            ((env.markets.lookup (strToLower log.address)).getD undefinedMarket)
            (env.decodeLog sch log.data) with
        | none => some tx
        | some tx2 => some tx2) := by
  refine ⟨classifyPayload_eq_seaport, classifyPayload_eq_swap,
    classifyPayload_eq_sale, ?_⟩
  intro env recipient tx log sch hsale hdec hsp
  have hc : classifyPayload (env.decodeLog sch log.data) = .seaportOrder :=
    classifyPayload_eq_seaport.mpr hsp
  unfold applySale
  simp only [hsale, if_true, hdec, hc]

/-- C8 witness: `wSeaportPricedPayload` carries both an offer field and a
swap identifier and is classified as a Seaport order; the router therefore
runs the listing/offer handler on `wSeaLog2` and credits its settlement
price instead of invoking the swap decoder. -/
theorem payload_shape_discrimination_witness :
    classifyPayload wSeaportPricedPayload = PayloadShape.seaportOrder ∧
    (applySale wEnv "m" wTx wSeaLog2).isSome = true := by
  constructor
  · exact (payload_shape_discrimination wSeaportPricedPayload).1.mpr (by decide)
  · have h := (payload_shape_discrimination wSeaportPricedPayload).2.2.2 wEnv "m"
      wTx wSeaLog2 3 (by decide) (by decide) (by decide)
    rw [h]
    rfl

/-- Claim C3: If a log is detected as a sale event but the selected market
descriptor (the recipient's for a recipient-address sale, the log-address
market's for an aggregator sale) has no decode schema, the whole transaction
parse aborts and returns `none`, producing no partial summary. -/
theorem missing_schema_aborts (env : Env)
    (transactionHash contractAddress : String) (contractData : ContractData)
    (receipt : Receipt) (recipient : String) (rm : Market) (tx0 txmid : TxData)
    (logs1 logs2 : List Log) (log : Log)
    (hrcpt : env.getTransactionReceipt transactionHash = receipt)
    (hrecip : recipient = strToLower receipt.toAddr)
    (hmk : env.markets.lookup recipient = some rm)
    (htx0 : tx0 = initTransactionData contractData rm (env.sweepFlag rm)
      contractAddress)
    (hlogs : receipt.logs = logs1 ++ log :: logs2)
    (hmid : processLogs env recipient tx0 logs1 = some txmid)
    (hsale : (isSaleLog env recipient log || isAggregatorSaleLog env log) = true)
    (hdec : selectedLogDecoder env recipient
      (applyTokenExtraction (applyCurrency env txmid (strToLower log.address)) log
        (strToLower log.address)) log = none) :
    parseTransaction env transactionHash contractAddress contractData = none := by
  subst hrecip
  subst htx0
  have habort : processLog env (strToLower receipt.toAddr) txmid log = none := by
    unfold processLog applySale
    simp only [hsale, if_true, hdec]
  have hred := parseTransaction_eq env transactionHash contractAddress contractData
    rm (by rw [hrcpt]; exact hmk)
  rw [hred, hrcpt, hlogs, processLogs_append, hmid]
  simp only [Option.some_bind, processLogs, habort]

/-- C3 witness: recipient market `n` is registered but has no decode schema;
its receipt carries a detected sale-event log, so the parse yields no
summary. -/
theorem missing_schema_aborts_witness :
    parseTransaction wEnv "noSchema" "nft" wContract = none :=
  missing_schema_aborts wEnv "noSchema" "nft" wContract wNoSchemaReceipt "n"
    wMarketNoDec (initTransactionData wContract wMarketNoDec false "nft")
    (initTransactionData wContract wMarketNoDec false "nft") [] [] wSaleLogN
    rfl (by decide) (by decide) rfl rfl rfl (by decide) (by decide)

/-- Claim C5: A listing/offer-shaped payload on which the Seaport-style
decoder reports no usable settlement price only causes that log to be
skipped: the scan continues with the remaining logs, the log never
increments `totalPrice` and never appends to `marketList` or `prices`, and
the transaction is not aborted. -/
theorem seaport_no_price_skips (env : Env) (recipient : String)
    (tx tx1 : TxData) (log : Log) (sch : Nat)
    (htx1 : tx1 = applyTokenExtraction (applyCurrency env tx (strToLower log.address))
      log (strToLower log.address))
    (hdec : selectedLogDecoder env recipient tx1 log = some sch)
    (hsp : isSeaport (env.decodeLog sch log.data) = true)
    (hfail : parseSeaport tx1 ((env.markets.lookup (strToLower log.address)).getD
      undefinedMarket) (env.decodeLog sch log.data) = none) :
    processLog env recipient tx log = some tx1 ∧
    tx1.marketList = tx.marketList ∧ tx1.prices = tx.prices ∧
    tx1.totalPrice = tx.totalPrice ∧
    ∀ rest, processLogs env recipient tx (log :: rest) =
      processLogs env recipient tx1 rest := by
  have hstep : processLog env recipient tx log = some tx1 := by
    show applySale env recipient
      (applyTokenExtraction (applyCurrency env tx (strToLower log.address)) log
        (strToLower log.address)) log = some tx1
    rw [← htx1]
    by_cases hb : (isSaleLog env recipient log || isAggregatorSaleLog env log) = true
    · have hc : classifyPayload (env.decodeLog sch log.data) = .seaportOrder :=
        classifyPayload_eq_seaport.mpr hsp
      unfold applySale
      simp only [hb, if_true, hdec, hc, hfail]
    · simp only [Bool.not_eq_true] at hb
      simp [applySale, hb]
  have hf1 := applyCurrency_frame env tx (strToLower log.address)
  have hf2 := applyTokenExtraction_frame (applyCurrency env tx (strToLower log.address))
    log (strToLower log.address)
  refine ⟨hstep, ?_, ?_, ?_, ?_⟩
  · rw [htx1, hf2.2.2.2.2.1, hf1.2.2.2.1]
  · rw [htx1, hf2.2.2.2.2.2.1, hf1.2.2.2.2.1]
  · rw [htx1, hf2.2.2.2.2.2.2, hf1.2.2.2.2.2.1]
  · intro rest
    simp only [processLogs, hstep]

/-- C5 witness: the Seaport-shaped no-price log `wSeaLog` is skipped without
touching the price state, and the scan continues. -/
theorem seaport_no_price_skips_witness :
    processLog wEnv "m" wTx wSeaLog = some wTxAfterSea ∧
    wTxAfterSea.marketList = wTx.marketList ∧
    wTxAfterSea.prices = wTx.prices ∧
    wTxAfterSea.totalPrice = wTx.totalPrice ∧
    processLogs wEnv "m" wTx [wSeaLog] = processLogs wEnv "m" wTxAfterSea [] := by
  have h := seaport_no_price_skips wEnv "m" wTx wTxAfterSea wSeaLog 1 rfl
    (by decide) (by decide) (by decide)
  exact ⟨h.1, h.2.1, h.2.2.1, h.2.2.2.1, h.2.2.2.2 []⟩

/-- Claim C7: For every log processed during the scan, the currency field is
overwritten from the currency registry exactly when the log's address is a
known currency and the summary is not flagged as a sweep; a sweep-flagged
transaction never has its currency updated by any log, and a log whose
address is not a known currency leaves the currency at its prior value. -/
theorem currency_update_rule (env : Env) (recipient : String) :
    (∀ tx log tx', processLog env recipient tx log = some tx' →
      tx'.currency =
        (match env.currencies.lookup (strToLower log.address) with
         | some c => if tx.isSweep then tx.currency else c
         | none => tx.currency) ∧
      tx'.isSweep = tx.isSweep) ∧
    (∀ logs tx tx', tx.isSweep = true →
      processLogs env recipient tx logs = some tx' →
      tx'.currency = tx.currency) := by
  have step : ∀ tx log tx', processLog env recipient tx log = some tx' →
      tx'.currency = (applyCurrency env tx (strToLower log.address)).currency ∧
      tx'.isSweep = tx.isSweep := by
    intro tx log tx' h
    have h2 : applySale env recipient
        (applyTokenExtraction (applyCurrency env tx (strToLower log.address)) log
          (strToLower log.address)) log = some tx' := h
    obtain ⟨hc, hsw, -, -, -, -⟩ := applySale_cases env recipient _ log tx' h2
    have hf2 := applyTokenExtraction_frame
      (applyCurrency env tx (strToLower log.address)) log (strToLower log.address)
    have hf1 := applyCurrency_frame env tx (strToLower log.address)
    constructor
    · rw [hc, hf2.2.1]
    · rw [hsw, hf2.2.2.2.1, hf1.2.2.1]
  constructor
  · intro tx log tx' h
    obtain ⟨hc, hsw⟩ := step tx log tx' h
    exact ⟨by rw [hc, applyCurrency_currency], hsw⟩
  · intro logs
    induction logs with
    | nil =>
      intro tx tx' _ h
      simp only [processLogs] at h
      obtain rfl : tx = tx' := Option.some.inj h
      rfl
    | cons log rest ih =>
      intro tx tx' hsweep h
      simp only [processLogs] at h
      cases hstep : processLog env recipient tx log with
      | none => rw [hstep] at h; cases h
      | some txm =>
        rw [hstep] at h
        obtain ⟨hc, hsw⟩ := step tx log txm hstep
        have hswm : txm.isSweep = true := by rw [hsw]; exact hsweep
        have hcur : txm.currency = tx.currency := by
          rw [hc, applyCurrency_currency]
          cases env.currencies.lookup (strToLower log.address) <;> simp [hsweep]
        rw [ih txm tx' hswm h, hcur]

/-- C7 witness: in a sweep-flagged transaction, a log whose address is the
registered currency `c` does not overwrite the frozen currency. -/
theorem currency_update_rule_witness :
    (processLogs wEnv "m" wTxSweep [wCurrencyLog]).map TxData.currency =
      some wTxSweep.currency := by
  have hscan : processLogs wEnv "m" wTxSweep [wCurrencyLog] =
      some wTxSweepAfter := by decide
  have h := (currency_update_rule wEnv "m").2 [wCurrencyLog] wTxSweep
    wTxSweepAfter rfl hscan
  rw [hscan, Option.map_some', h]

/-- Claim C2, amended: During the scan, `prices.length = marketList.length`
holds at every point and is preserved by every operation; and
`marketList.length ≤ tokens.length` is preserved by every operation whose
selected schema does not decode to an offer-shaped (Seaport) payload — a
successful listing/offer decode is the one operation that can break it,
because it credits a market and a price without consuming a pending token. -/
theorem scan_invariant (env : Env) (recipient : String) :
    (∀ tx log tx', processLog env recipient tx log = some tx' →
      (tx.prices.length = tx.marketList.length →
        tx'.prices.length = tx'.marketList.length) ∧
      ((∀ sch, selectedLogDecoder env recipient
          (applyTokenExtraction (applyCurrency env tx (strToLower log.address)) log
            (strToLower log.address)) log = some sch →
          isSeaport (env.decodeLog sch log.data) = false) →
        tx.marketList.length ≤ tx.tokens.length →
        tx'.marketList.length ≤ tx'.tokens.length)) ∧
    (∀ logs tx tx', tx.prices.length = tx.marketList.length →
      processLogs env recipient tx logs = some tx' →
      tx'.prices.length = tx'.marketList.length) := by
  have step : ∀ tx log tx', processLog env recipient tx log = some tx' →
      (tx.prices.length = tx.marketList.length →
        tx'.prices.length = tx'.marketList.length) ∧
      ((∀ sch, selectedLogDecoder env recipient
          (applyTokenExtraction (applyCurrency env tx (strToLower log.address)) log
            (strToLower log.address)) log = some sch →
          isSeaport (env.decodeLog sch log.data) = false) →
        tx.marketList.length ≤ tx.tokens.length →
        tx'.marketList.length ≤ tx'.tokens.length) := by
    intro tx log tx' h
    have h2 : applySale env recipient
        (applyTokenExtraction (applyCurrency env tx (strToLower log.address)) log
          (strToLower log.address)) log = some tx' := h
    have hf2 := applyTokenExtraction_frame
      (applyCurrency env tx (strToLower log.address)) log (strToLower log.address)
    have hf1 := applyCurrency_frame env tx (strToLower log.address)
    have hml1 : (applyTokenExtraction (applyCurrency env tx (strToLower log.address))
        log (strToLower log.address)).marketList = tx.marketList := by
      rw [hf2.2.2.2.2.1, hf1.2.2.2.1]
    have hpr1 : (applyTokenExtraction (applyCurrency env tx (strToLower log.address))
        log (strToLower log.address)).prices = tx.prices := by
      rw [hf2.2.2.2.2.2.1, hf1.2.2.2.2.1]
    have htk1 : tx.tokens.length ≤
        (applyTokenExtraction (applyCurrency env tx (strToLower log.address))
          log (strToLower log.address)).tokens.length := by
      have := applyTokenExtraction_tokens_len
        (applyCurrency env tx (strToLower log.address)) log (strToLower log.address)
      rw [hf1.2.2.2.2.2.2.1] at this
      exact this
    obtain ⟨-, -, -, -, htk, hcase⟩ := applySale_cases env recipient _ log tx' h2
    constructor
    · intro hp
      rcases hcase with ⟨hm, hq, -⟩ | ⟨⟨hm, hq⟩, -⟩
      · rw [hm, hq, hml1, hpr1, hp]
      · rw [hq, hm, hpr1, hml1, hp]
    · intro hno hle
      rcases hcase with ⟨hm, -, -⟩ | ⟨⟨hm, -⟩, hguard | ⟨sch, hsch, hsp⟩⟩
      · rw [hm, hml1, htk]
        exact le_trans hle htk1
      · rw [hm, htk]
        exact le_of_eq hguard
      · exact absurd hsp (by simp [hno sch hsch])
  refine ⟨step, ?_⟩
  intro logs
  induction logs with
  | nil =>
    intro tx tx' hp h
    simp only [processLogs] at h
    obtain rfl : tx = tx' := Option.some.inj h
    exact hp
  | cons log rest ih =>
    intro tx tx' hp h
    simp only [processLogs] at h
    cases hstep : processLog env recipient tx log with
    | none => rw [hstep] at h; cases h
    | some txm =>
      rw [hstep] at h
      exact ih txm tx' ((step tx log txm hstep).1 hp) h

/-- C2 counterexample: a single Seaport-shaped sale log with an executed
consideration but no preceding token movement is accepted by the modelled
listing/offer decoder, leaving `marketList.length = 1 > 0 = tokens.length`
immediately after the operation (while `prices.length` stays equal to
`marketList.length`). -/
theorem scan_invariant_counterexample :
    (processLog wEnv "m" wTx wSeaLog2).map
      (fun t => (t.prices.length, t.marketList.length, t.tokens.length)) =
      some (1, 1, 0) ∧
    (processLog wEnv "m" wTx wSeaLog2).map
      (fun t => decide (t.marketList.length ≤ t.tokens.length)) = some false := by
  exact ⟨by decide, by decide⟩

/-- C2 witness (amended theorem): an accepted generic sale-price log from
the one-pending-token state preserves both halves of the invariant. -/
theorem scan_invariant_witness :
    wTxAfterGeneric.prices.length = wTxAfterGeneric.marketList.length ∧
    wTxAfterGeneric.marketList.length ≤ wTxAfterGeneric.tokens.length := by
  have h := (scan_invariant wEnv "m").1 wTx1 wSaleLogM wTxAfterGeneric (by rfl)
  exact ⟨h.1 (by decide), h.2 (by decide) (by decide)⟩

/-- The finalization step returns `none` exactly when the transaction is a
non-swap with zero quantity or a swap without a (truthy) monitored token
id. -/
theorem finalizeTx_none_iff (env : Env) (receipt : Receipt)
    (transactionHash contractAddress : String) (tx0 : TxData) :
    finalizeTx env receipt transactionHash contractAddress tx0 = none ↔
      ((tx0.isSwap = false ∧ computeQuantity tx0 = 0) ∨
        (tx0.isSwap = true ∧ jsFalsyStr tx0.swap.monitorTokenId = true)) := by
  unfold finalizeTx
  dsimp only
  split
  case isTrue hcond =>
    refine iff_of_true rfl ?_
    rw [Bool.or_eq_true, Bool.and_eq_true, Bool.and_eq_true] at hcond
    rcases hcond with ⟨h1, h2⟩ | ⟨h1, h2⟩
    · exact Or.inl ⟨by simpa using h1, by simpa using h2⟩
    · exact Or.inr ⟨h1, h2⟩
  case isFalse hcond =>
    refine iff_of_false (by simp) ?_
    intro hcontra
    apply hcond
    rw [Bool.or_eq_true, Bool.and_eq_true, Bool.and_eq_true]
    rcases hcontra with ⟨h1, h2⟩ | ⟨h1, h2⟩
    · exact Or.inl ⟨by simp [h1], by simp [h2]⟩
    · exact Or.inr ⟨h1, h2⟩

/-- A finalized summary carries `quantity = computeQuantity` of the scanned
record. -/
theorem finalizeTx_some_quantity (env : Env) (receipt : Receipt)
    (transactionHash contractAddress : String) (tx0 txr : TxData)
    (h : finalizeTx env receipt transactionHash contractAddress tx0 = some txr) :
    txr.quantity = computeQuantity tx0 := by
  unfold finalizeTx at h
  dsimp only at h
  split at h
  case isTrue => cases h
  case isFalse =>
    obtain rfl : _ = txr := Option.some.inj h
    rfl

/-- Claim C1: A sale-event log whose decoded payload is neither offer- nor
swap-shaped is accepted as a generic sale-price log iff
`marketList.length + 1 = tokens.length` at that moment; when accepted, the
price is read from the payload's `price` field (`amount` for the market
named `X2Y2 ⭕️`), scaled by the current currency's decimal count, added to
`totalPrice`, and the market and formatted price are appended to
`marketList`/`prices`; otherwise the log is silently ignored with no state
change and no error — so of two consecutive generic sale-price logs with no
intervening token movement, the second is rejected. -/
theorem generic_sale_price_log (env : Env) (recipient : String) (tx : TxData)
    (log : Log) (sch : Nat) (lm : Market)
    (hsale : (isSaleLog env recipient log || isAggregatorSaleLog env log) = true)
    (hdec : selectedLogDecoder env recipient tx log = some sch)
    (hlm : env.markets.lookup (strToLower log.address) = some lm)
    (hnoOffer : isSeaport (env.decodeLog sch log.data) = false)
    (hnoSwap : isNftTrader (env.decodeLog sch log.data) = false) :
    (tx.marketList.length + 1 = tx.tokens.length →
      applySale env recipient tx log = some { tx with
        totalPrice := tx.totalPrice +
          genericPrice lm (env.decodeLog sch log.data) tx.currency
        marketList := tx.marketList ++ [lm]
        prices := tx.prices ++ [formatPrice
          (genericPrice lm (env.decodeLog sch log.data) tx.currency)] }) ∧
    (tx.marketList.length + 1 ≠ tx.tokens.length →
      applySale env recipient tx log = some tx) ∧
    (∀ tx' log2 tx2 sch2,
      tx.marketList.length + 1 = tx.tokens.length →
      applySale env recipient tx log = some tx' →
      tx2 = applyTokenExtraction (applyCurrency env tx' (strToLower log2.address))
        log2 (strToLower log2.address) →
      tx2.tokens = tx'.tokens →
      selectedLogDecoder env recipient tx2 log2 = some sch2 →
      isSeaport (env.decodeLog sch2 log2.data) = false →
      isNftTrader (env.decodeLog sch2 log2.data) = false →
      processLog env recipient tx' log2 = some tx2 ∧
      tx2.marketList = tx'.marketList ∧ tx2.prices = tx'.prices ∧
      tx2.totalPrice = tx'.totalPrice) := by
  have hgen := applySale_generic env recipient tx log sch hsale hdec hnoOffer hnoSwap
  rw [hlm] at hgen
  simp only [Option.getD_some] at hgen
  refine ⟨fun hg => by rw [hgen, if_pos hg], fun hg => by rw [hgen, if_neg hg], ?_⟩
  intro tx' log2 tx2 sch2 hg hacc htx2 htok hdec2 hno2 hns2
  rw [hgen, if_pos hg] at hacc
  have heq : _ = tx' := Option.some.inj hacc
  have hml' : tx'.marketList = tx.marketList ++ [lm] := by rw [← heq]
  have htk' : tx'.tokens = tx.tokens := by rw [← heq]
  have hf2 := applyTokenExtraction_frame
    (applyCurrency env tx' (strToLower log2.address)) log2 (strToLower log2.address)
  have hf1 := applyCurrency_frame env tx' (strToLower log2.address)
  have hml2 : tx2.marketList = tx'.marketList := by
    rw [htx2, hf2.2.2.2.2.1, hf1.2.2.2.1]
  have hpr2 : tx2.prices = tx'.prices := by
    rw [htx2, hf2.2.2.2.2.2.1, hf1.2.2.2.2.1]
  have hpt2 : tx2.totalPrice = tx'.totalPrice := by
    rw [htx2, hf2.2.2.2.2.2.2, hf1.2.2.2.2.2.1]
  have hlen_m : tx2.marketList.length = tx.marketList.length + 1 := by
    rw [hml2, hml']; simp
  have hlen_t : tx2.tokens.length = tx.marketList.length + 1 := by
    rw [htok, htk', ← hg]
  have hne : tx2.marketList.length + 1 ≠ tx2.tokens.length := by
    rw [hlen_m, hlen_t]; omega
  have hstep : applySale env recipient tx2 log2 = some tx2 := by
    by_cases hb2 : (isSaleLog env recipient log2 || isAggregatorSaleLog env log2) = true
    · have hgen2 := applySale_generic env recipient tx2 log2 sch2 hb2 hdec2 hno2 hns2
      rw [hgen2, if_neg hne]
    · simp only [Bool.not_eq_true] at hb2
      simp [applySale, hb2]
  refine ⟨?_, hml2, hpr2, hpt2⟩
  show applySale env recipient
    (applyTokenExtraction (applyCurrency env tx' (strToLower log2.address)) log2
      (strToLower log2.address)) log2 = some tx2
  rw [← htx2]
  exact hstep

/-- C1 witness: with exactly one pending token, the generic sale-price log
`wSaleLogM` is accepted and credits market `M` with the payload's `price`
field scaled by 18 decimals. -/
theorem generic_sale_price_log_witness :
    applySale wEnv "m" wTx1 wSaleLogM = some { wTx1 with
      totalPrice := wTx1.totalPrice +
        genericPrice wMarket (wEnv.decodeLog 0 wSaleLogM.data) wTx1.currency
      marketList := wTx1.marketList ++ [wMarket]
      prices := wTx1.prices ++ [formatPrice
        (genericPrice wMarket (wEnv.decodeLog 0 wSaleLogM.data) wTx1.currency)] } :=
  (generic_sale_price_log wEnv "m" wTx1 wSaleLogM 0 wMarket (by decide) (by decide)
    (by decide) (by decide) (by decide)).1 (by decide)

/-- Claim C4: In swap mode, a swap-shaped sale-event payload on which the swap
decoder reports failure aborts the entire parse with `none`; and a swap
transaction for which no monitored token id was resolved by the end of the
scan also yields `none` — never a partial record. -/
theorem swap_failure_aborts (env : Env)
    (transactionHash contractAddress : String) (contractData : ContractData)
    (receipt : Receipt) (recipient : String) (rm : Market) (tx0 : TxData)
    (hrcpt : env.getTransactionReceipt transactionHash = receipt)
    (hrecip : recipient = strToLower receipt.toAddr)
    (hmk : env.markets.lookup recipient = some rm)
    (htx0 : tx0 = initTransactionData contractData rm (env.sweepFlag rm)
      contractAddress) :
    (∀ logs1 log logs2 txmid tx1 sch,
      receipt.logs = logs1 ++ log :: logs2 →
      processLogs env recipient tx0 logs1 = some txmid →
      tx1 = applyTokenExtraction (applyCurrency env txmid (strToLower log.address))
        log (strToLower log.address) →
      tx1.isSwap = true →
      (isSaleLog env recipient log || isAggregatorSaleLog env log) = true →
      selectedLogDecoder env recipient tx1 log = some sch →
      isSeaport (env.decodeLog sch log.data) = false →
      isNftTrader (env.decodeLog sch log.data) = true →
      parseNftTrader env tx1 log (strToLower log.address)
        (env.decodeLog sch log.data) = none →
      parseTransaction env transactionHash contractAddress contractData = none) ∧
    (∀ txf, processLogs env recipient tx0 receipt.logs = some txf →
      txf.isSwap = true → jsFalsyStr txf.swap.monitorTokenId = true →
      parseTransaction env transactionHash contractAddress contractData = none) := by
  subst hrecip
  subst htx0
  constructor
  · intro logs1 log logs2 txmid tx1 sch hlogs hmid htx1 _hswap hsale hdec hno hyes hfail
    subst htx1
    have hc : classifyPayload (env.decodeLog sch log.data) = .swapEvent :=
      classifyPayload_eq_swap.mpr ⟨hno, hyes⟩
    have habort : processLog env (strToLower receipt.toAddr) txmid log = none := by
      unfold processLog applySale
      simp only [hsale, if_true, hdec, hc, hfail]
    have hred := parseTransaction_eq env transactionHash contractAddress contractData
      rm (by rw [hrcpt]; exact hmk)
    rw [hred, hrcpt, hlogs, processLogs_append, hmid]
    simp only [Option.some_bind, processLogs, habort]
  · intro txf hscan hswap hfalsy
    have hred := parseTransaction_eq env transactionHash contractAddress contractData
      rm (by rw [hrcpt]; exact hmk)
    have hpt : parseTransaction env transactionHash contractAddress contractData =
        finalizeTx env receipt transactionHash contractAddress txf := by
      rw [hred, hrcpt, hscan]
    rw [hpt, finalizeTx_none_iff]
    exact Or.inr ⟨hswap, hfalsy⟩

/-- C4 witness: the swap-market receipt whose only log decodes to a
swap-shaped payload, while the external monitored-token lookup fails, yields
no summary. -/
theorem swap_failure_aborts_witness :
    parseTransaction wEnv "swapFail" "nft" wContract = none :=
  (swap_failure_aborts wEnv "swapFail" "nft" wContract wSwapFailReceipt "s"
    wSwapMarket (initTransactionData wContract wSwapMarket false "nft")
    rfl (by decide) (by decide) rfl).1 [] wSaleLogS []
    (initTransactionData wContract wSwapMarket false "nft") wTxSMid 2
    rfl rfl rfl (by decide) (by decide) (by decide) (by decide) (by decide)
    (by decide)

/-- Claim C6: After a scan that does not abort, the summary's `quantity`
equals `tokens.length` when `tokenType` is ERC721 and the numeric sum of
`tokens` otherwise; and the parse returns `none` (a recoverable "no tokens
found" outcome, not a crash) exactly when the transaction is a non-swap
with zero quantity or a swap with no monitored token id resolved. -/
theorem finalization_outcome (env : Env)
    (transactionHash contractAddress : String) (contractData : ContractData)
    (receipt : Receipt) (recipient : String) (rm : Market) (tx0 txf : TxData)
    (hrcpt : env.getTransactionReceipt transactionHash = receipt)
    (hrecip : recipient = strToLower receipt.toAddr)
    (hmk : env.markets.lookup recipient = some rm)
    (htx0 : tx0 = initTransactionData contractData rm (env.sweepFlag rm)
      contractAddress)
    (hscan : processLogs env recipient tx0 receipt.logs = some txf) :
    (parseTransaction env transactionHash contractAddress contractData = none ↔
      ((txf.isSwap = false ∧
          (if txf.tokenType = some "ERC721" then txf.tokens.length
            else txf.tokens.sum) = 0) ∨
        (txf.isSwap = true ∧ jsFalsyStr txf.swap.monitorTokenId = true))) ∧
    (∀ txr, parseTransaction env transactionHash contractAddress contractData =
        some txr →
      txr.quantity = (if txf.tokenType = some "ERC721" then txf.tokens.length
        else txf.tokens.sum)) := by
  subst hrecip
  subst htx0
  have hred := parseTransaction_eq env transactionHash contractAddress contractData
    rm (by rw [hrcpt]; exact hmk)
  have hpt : parseTransaction env transactionHash contractAddress contractData =
      finalizeTx env receipt transactionHash contractAddress txf := by
    rw [hred, hrcpt, hscan]
  constructor
  · rw [hpt, finalizeTx_none_iff]
    simp only [computeQuantity]
  · intro txr h
    rw [hpt] at h
    have hq := finalizeTx_some_quantity env receipt transactionHash contractAddress
      txf txr h
    simpa [computeQuantity] using hq

/-- C6 witness: the ERC721 receipt `wOkReceipt` finalizes with quantity 1 and
is not rejected. -/
theorem finalization_outcome_witness :
    parseTransaction wEnv "ok" "nft" wContract ≠ none ∧
    (parseTransaction wEnv "ok" "nft" wContract).map TxData.quantity =
      some (if wTxScanned.tokenType = some "ERC721" then wTxScanned.tokens.length
        else wTxScanned.tokens.sum) := by
  have h := finalization_outcome wEnv "ok" "nft" wContract wOkReceipt "m" wMarket
    (initTransactionData wContract wMarket false "nft") wTxScanned
    rfl (by decide) (by decide) rfl (by rfl)
  constructor
  · rw [Ne, h.1]
    decide
  · cases hp : parseTransaction wEnv "ok" "nft" wContract with
    | none => exact absurd (h.1.mp hp) (by decide)
    | some txr =>
      rw [Option.map_some', h.2 txr hp]

end NftBot
